import Mathlib

/-!
Verification of the init process in `init/main.go` (a minimal PID-1 init for
Firecracker microVMs), via a shallow embedding.

System calls and filesystem operations are modelled by explicit result values
(oracles) passed into the embedded functions; each embedded definition mirrors
the corresponding Go function's control flow over those results.
-/

set_option maxRecDepth 4096

/-- Errors returned by system calls, as Go `error` values.  `echild` is the
`ECHILD` errno ("no child processes"); `eintr` is `EINTR` (interrupted). -/
inductive GoErr
  | echild
  | eintr
  | enoent
  | eacces
  | other (code : Nat)
  deriving DecidableEq, Repr

/-! ## Zombie reaper (`reapZombies`, main.go lines 56-67)

`syscall.Wait4(-1, &ws, WNOHANG, nil)` returns a pid and an error.  With
`WNOHANG` the call reports "no child available" either as pid 0 with no error
(children exist but none has exited) or as pid -1 with `ECHILD` (no children
at all).  A returned pid > 0 means one exited child was claimed (reaped).
We model the sequence of results the kernel hands back as a list. -/

/-- One result of the `syscall.Wait4` call in `reapZombies`. -/
structure Wait4Result where
  pid : Int
  err : Option GoErr
  deriving DecidableEq, Repr

/-- A `Wait4Result` that reports "no child available": pid 0 with no error
(children alive, none exited) or pid -1 with `ECHILD` (no children). -/
def noChildAvailable (r : Wait4Result) : Prop :=
  (r.pid = 0 ∧ r.err = none) ∨ (r.pid = -1 ∧ r.err = some GoErr.echild)

instance (r : Wait4Result) : Decidable (noChildAvailable r) := by
  unfold noChildAvailable; infer_instance

/-- The inner loop of `reapZombies` (lines 59-64): repeatedly call `Wait4`
with `WNOHANG`; `break` as soon as `pid <= 0 || err != nil`.  Returns the
pids claimed during the pass and the unconsumed remainder of the result
list.  A result with pid > 0 claims a child even when it is the one that
stops the pass. -/
def drainPass : List Wait4Result → List Int × List Wait4Result
  | [] => ([], [])
  | r :: rest =>
    let claimed : List Int := if r.pid > 0 then [r.pid] else []
    if r.pid ≤ 0 ∨ r.err ≠ none then (claimed, rest)
    else
      let p := drainPass rest
      (claimed ++ p.1, p.2)

/-- Whether the body of `reapZombies`'s outer loop ever exits the loop or
returns from the function.  In the distinguished outcome language of the
embedding this would be `terminated`; the Go body (lines 57-66) contains no
`return` and no `break` of the outer loop. -/
inductive ReaperStatus
  | running
  | terminated
  deriving DecidableEq, Repr

/-- One iteration of the outer loop of `reapZombies`: run the inner drain
pass, `time.Sleep(time.Second)`, and continue.  No statement in the body
exits the outer loop, so the status is always `running`. -/
def reapIteration (trace : List Wait4Result) :
    List Int × List Wait4Result × ReaperStatus :=
  let p := drainPass trace
  (p.1, p.2, ReaperStatus.running)

/-- `n` iterations of the outer loop of `reapZombies`, consuming the given
`Wait4` result list.  Returns all pids claimed and the loop status. -/
def reapRun : Nat → List Wait4Result → List Int × ReaperStatus
  | 0, _ => ([], ReaperStatus.running)
  | n + 1, trace =>
    let step := reapIteration trace
    match step.2.2 with
    | ReaperStatus.terminated => (step.1, ReaperStatus.terminated)
    | ReaperStatus.running =>
      let tail := reapRun n step.2.1
      (step.1 ++ tail.1, tail.2)

/-! ## Service launcher (`startServices`, main.go lines 78-105, and
`startAndLogProcess`, lines 108-130) -/

/-- An entry of `os.ReadDir`: a name and whether the entry is a directory
(`file.IsDir()`, which for a symlink entry is false). -/
structure DirEntry where
  name : String
  isDir : Bool
  deriving DecidableEq, Repr

/-- The part of `os.Stat`'s `FileInfo` that `startServices` consults:
`info.Mode().Perm()`, the low nine permission bits. -/
structure FileInfo where
  perm : Nat
  deriving DecidableEq, Repr

/-- `filepath.Join(dir, name)` for the clean, slash-free names used here. -/
def filepathJoin (dir name : String) : String := dir ++ "/" ++ name

/-- The launch decision `startServices` makes for one directory entry
(lines 85-102): skip directories, stat the full path (`none` models a stat
error, e.g. the entry disappeared), and require at least one execute
permission bit (`info.Mode().Perm()&0111 != 0`). -/
def serviceSelected (binaryDir : String) (stat : String → Option FileInfo)
    (file : DirEntry) : Bool :=
  if file.isDir then false
  else
    match stat (filepathJoin binaryDir file.name) with
    | none => false
    | some info => info.perm &&& 0o111 ≠ 0

/-- `startServices(binaryDir, logDir)`: `os.ReadDir` is modelled by its
result (`readDir`); on error that error is returned and nothing is
launched.  Otherwise, for each selected entry a background task
`startAndLogProcess(filePath, logDir/<name>.log)` is spawned; the returned
list records those spawns (binary path, log file path) in directory order.
A successful run returns `Except.ok` (the Go function returns `nil`). -/
def startServices (binaryDir logDir : String)
    (readDir : Except GoErr (List DirEntry))
    (stat : String → Option FileInfo) :
    Except GoErr (List (String × String)) :=
  match readDir with
  | Except.error e => Except.error e
  | Except.ok files =>
    Except.ok <| files.filterMap fun file =>
      if file.isDir then none
      else
        let filePath := filepathJoin binaryDir file.name
        match stat filePath with
        | none => none
        | some info =>
          if info.perm &&& 0o111 ≠ 0 then
            some (filePath, filepathJoin logDir (file.name ++ ".log"))
          else none

/-- Observable steps of one `startAndLogProcess` task.  `printError` exists
in the action language so that "silently skipped" is statable; the Go
function contains no printing. -/
inductive SvcAction
  | openLog (path : String)
  | startProc (bin : String)
  | waitProc (bin : String)
  | printError (msg : String)
  deriving DecidableEq, Repr

/-- `startAndLogProcess(binaryPath, logFilePath)` (lines 108-130): open the
log file (`openOk` models whether `os.OpenFile` succeeded with a non-nil
file); on failure return at once.  Then `cmd.Start()` (`startOk`); on
failure return.  Then `cmd.Wait()`.  The function has no return value and
prints nothing; its observable behaviour is this action list. -/
def startAndLogProcess (binaryPath logFilePath : String)
    (openOk : Bool) (startOk : Bool) : List SvcAction :=
  if openOk then
    if startOk then
      [SvcAction.openLog logFilePath, SvcAction.startProc binaryPath,
       SvcAction.waitProc binaryPath]
    else
      [SvcAction.openLog logFilePath]
  else []

/-- The whole service phase: `startServices` decides the launches, then each
launched background task runs `startAndLogProcess` with its own open/start
outcomes (`openOk` indexed by log path, `startOk` by binary path).  Each
element pairs a launch with that task's actions. -/
def servicePhase (binaryDir logDir : String)
    (readDir : Except GoErr (List DirEntry))
    (stat : String → Option FileInfo)
    (openOk : String → Bool) (startOk : String → Bool) :
    Except GoErr (List ((String × String) × List SvcAction)) :=
  (startServices binaryDir logDir readDir stat).map fun launches =>
    launches.map fun l =>
      (l, startAndLogProcess l.1 l.2 (openOk l.2) (startOk l.1))

/-! ## The `main` function (main.go lines 13-48)

`main` is straight-line code; we model it as the list of actions it performs,
in program order, as a function of the results the environment hands back.
Results that the Go code discards (`os.MkdirAll`, `syscall.Mount`,
`cmd.Run()`) are still parameters of the model, so that invariance of the
trace in them is a statable theorem. -/

/-- A signal, as delivered by the kernel. -/
inductive Sig
  | sigterm
  | sigint
  | other (n : Nat)
  deriving DecidableEq, Repr

/-- The signals subscribed to by `signal.Notify(signals, SIGTERM, SIGINT)`
(line 16). -/
def notifySet : List Sig := [Sig.sigterm, Sig.sigint]

/-- `LINUX_REBOOT_CMD_RESTART`, the argument of `syscall.Reboot` (line 48). -/
def LINUX_REBOOT_CMD_RESTART : Nat := 0x1234567

/-- The actions `main` performs, in the order it performs them. -/
inductive InitAction
  | subscribe (bufSize : Nat) (sigs : List Sig)
  | mkdirAll (target : String) (perm : Nat)
  | mountCall (source target fstype : String)
  | startReaper
  | launch (bin logFile : String)
  | printError (msg : String)
  | shellRun (bin : String) (args : List String)
      (stdinWired stdoutWired stderrWired : Bool) (env : List String)
  | recvSignal (s : Sig)
  | rebootCall (cmd : Nat)
  deriving DecidableEq, Repr

/-- The fixed mount list of lines 22-26: target path and filesystem type,
in program order. -/
def mountSpecs : List (String × String) :=
  [("/dev", "devtmpfs"), ("/proc", "proc"), ("/sys", "sysfs"),
   ("/tmp", "tmpfs"), ("/run", "tmpfs")]

/-- `mount(target, fstype)` (lines 70-73): `os.MkdirAll(target, 0755)` then
`syscall.Mount("none", target, fstype, 0, "")`.  Both return values are
discarded by the Go code, so the action list does not branch on the
results. -/
def mountFn (target fstype : String) : List InitAction :=
  [InitAction.mkdirAll target 0o755, InitAction.mountCall "none" target fstype]

/-- The signal channel `signals := make(chan os.Signal, 1)` (line 15): a
buffer holding at most one signal.  `deliver` is the runtime's non-blocking
send performed for each subscribed signal: when the buffer is full the
signal is dropped. -/
def deliver (buf : Option Sig) (s : Sig) : Option Sig :=
  if s ∈ notifySet then
    match buf with
    | none => some s
    | some t => some t
  else buf

/-- The buffer contents after a sequence of kernel signal deliveries. -/
def deliverAll (buf : Option Sig) : List Sig → Option Sig
  | [] => buf
  | s :: rest => deliverAll (deliver buf s) rest

/-- The results the environment hands back to `main`; the fields mirror, in
order, each call whose result the code consumes or discards. -/
structure Oracles where
  /-- the inherited process environment, `os.Environ()` (line 42) -/
  environ : List String
  /-- result of each `os.MkdirAll` by target path (discarded, line 71) -/
  mkdirErr : String → Option GoErr
  /-- result of each `syscall.Mount` by target path (discarded, line 72) -/
  mountErr : String → Option GoErr
  /-- result of `os.ReadDir("/etc/services")` (line 79) -/
  readDir : Except GoErr (List DirEntry)
  /-- result of `os.Stat` per path (line 92) -/
  stat : String → Option FileInfo
  /-- result of `cmd.Run()` for the shell (discarded, line 44) -/
  shellErr : Option GoErr

/-- The `PS1` entry appended to the environment (line 42). -/
def ps1Entry : String := "PS1=[e2b-init-tutorial]\\$ "

/-- Rendering of `fmt.Printf("Failed to start processes: %v\n", err)`
(line 33). -/
def failMsg (e : GoErr) : String :=
  "Failed to start processes: " ++ reprStr e ++ "\n"

/-- Lines 13-29 of `main`: subscribe (channel of capacity 1, SIGTERM and
SIGINT), the five mounts in list order, then `go reapZombies()`. -/
def bootActions : List InitAction :=
  [InitAction.subscribe 1 notifySet]
    ++ (mountSpecs.foldr (fun sp acc => mountFn sp.1 sp.2 ++ acc) [])
    ++ [InitAction.startReaper]

/-- Lines 31-34 of `main`: `startServices("/etc/services", "/var/log")`,
whose error (if any) is printed; on success each selected entry is
launched as its own background task. -/
def serviceSuffix (o : Oracles) : List InitAction :=
  match startServices "/etc/services" "/var/log" o.readDir o.stat with
  | Except.error e => [InitAction.printError (failMsg e)]
  | Except.ok launches => launches.map fun l => InitAction.launch l.1 l.2

/-- Everything `main` does before starting the foreground shell. -/
def preShellActions (o : Oracles) : List InitAction :=
  bootActions ++ serviceSuffix o

/-- Lines 37-44: the foreground shell `exec.Command("/bin/busybox", "sh")`
with stdin/stdout/stderr wired to the process's own streams and environment
`os.Environ()` plus the `PS1` entry.  `cmd.Run()`'s result is discarded. -/
def shellAction (o : Oracles) : InitAction :=
  InitAction.shellRun "/bin/busybox" ["sh"] true true true (o.environ ++ [ps1Entry])

/-- Lines 47-48: `<-signals` then `syscall.Reboot`.  If the channel buffer
holds a signal the receive consumes it and reboot follows; otherwise `main`
blocks on the receive and performs nothing further. -/
def awaitActions (buf : Option Sig) : List InitAction :=
  match buf with
  | some s => [InitAction.recvSignal s, InitAction.rebootCall LINUX_REBOOT_CMD_RESTART]
  | none => []

/-- How a run of `main` ends.  `exitedWithoutReboot` is in the outcome
language so that its absence is statable; no path of the code produces it
(the only fall-through of `main` is after `syscall.Reboot`). -/
inductive MainOutcome
  | rebooted
  | blockedAwaitingSignal
  | exitedWithoutReboot
  deriving DecidableEq, Repr

/-- A run of `main`: the action trace and its outcome, given the oracle
results and the signals the kernel delivers during the run.  Deliveries
only fill the buffered channel, which `main` reads once after the shell
returns, so only their order matters, not their timing. -/
def mainRun (o : Oracles) (deliveries : List Sig) : List InitAction × MainOutcome :=
  let buf := deliverAll none deliveries
  (preShellActions o ++ [shellAction o] ++ awaitActions buf,
   match buf with
   | some _ => MainOutcome.rebooted
   | none => MainOutcome.blockedAwaitingSignal)

/-! ## Classifiers over actions -/

/-- Is this action an invocation of `syscall.Reboot`? -/
def isReboot : InitAction → Bool
  | InitAction.rebootCall _ => true
  | _ => false

/-- Is this action a receive from the signal channel? -/
def isRecv : InitAction → Bool
  | InitAction.recvSignal _ => true
  | _ => false

/-- Is this action the run of the foreground shell? -/
def isShellRun : InitAction → Bool
  | InitAction.shellRun _ _ _ _ _ _ => true
  | _ => false

/-- Is this action part of a mount attempt (directory creation or the
`syscall.Mount` call itself)? -/
def isMountAttempt : InitAction → Bool
  | InitAction.mkdirAll _ _ => true
  | InitAction.mountCall _ _ _ => true
  | _ => false

/-- Is this action the launch of a service's background task? -/
def isLaunch : InitAction → Bool
  | InitAction.launch _ _ => true
  | _ => false

/-! ## Helper lemmas -/

theorem bootActions_eq :
    bootActions =
      [InitAction.subscribe 1 notifySet,
       InitAction.mkdirAll "/dev" 0o755,
       InitAction.mountCall "none" "/dev" "devtmpfs",
       InitAction.mkdirAll "/proc" 0o755,
       InitAction.mountCall "none" "/proc" "proc",
       InitAction.mkdirAll "/sys" 0o755,
       InitAction.mountCall "none" "/sys" "sysfs",
       InitAction.mkdirAll "/tmp" 0o755,
       InitAction.mountCall "none" "/tmp" "tmpfs",
       InitAction.mkdirAll "/run" 0o755,
       InitAction.mountCall "none" "/run" "tmpfs",
       InitAction.startReaper] := rfl

theorem mem_bootActions_shape (a : InitAction) (ha : a ∈ bootActions) :
    isReboot a = false ∧ isRecv a = false ∧ isShellRun a = false ∧
      isLaunch a = false := by
  rw [bootActions_eq] at ha
  fin_cases ha <;> exact ⟨rfl, rfl, rfl, rfl⟩

theorem mem_serviceSuffix_shape (o : Oracles) (a : InitAction)
    (ha : a ∈ serviceSuffix o) :
    (∃ b l, a = InitAction.launch b l) ∨ (∃ m, a = InitAction.printError m) := by
  unfold serviceSuffix at ha
  cases hsv : startServices "/etc/services" "/var/log" o.readDir o.stat with
  | error e =>
    rw [hsv] at ha
    simp only [List.mem_singleton] at ha
    exact Or.inr ⟨failMsg e, ha⟩
  | ok launches =>
    rw [hsv] at ha
    simp only [List.mem_map] at ha
    obtain ⟨l, _, rfl⟩ := ha
    exact Or.inl ⟨l.1, l.2, rfl⟩

theorem mem_serviceSuffix_classifiers (o : Oracles) (a : InitAction)
    (ha : a ∈ serviceSuffix o) :
    isReboot a = false ∧ isRecv a = false ∧ isShellRun a = false ∧
      isMountAttempt a = false := by
  rcases mem_serviceSuffix_shape o a ha with ⟨b, l, rfl⟩ | ⟨m, rfl⟩ <;>
    exact ⟨rfl, rfl, rfl, rfl⟩

theorem preShell_countP_isReboot (o : Oracles) :
    (preShellActions o).countP isReboot = 0 := by
  apply List.countP_eq_zero.mpr
  intro a ha
  rcases List.mem_append.mp ha with h | h
  · simpa using (mem_bootActions_shape a h).1
  · simpa using (mem_serviceSuffix_classifiers o a h).1

theorem preShell_countP_isRecv (o : Oracles) :
    (preShellActions o).countP isRecv = 0 := by
  apply List.countP_eq_zero.mpr
  intro a ha
  rcases List.mem_append.mp ha with h | h
  · simpa using (mem_bootActions_shape a h).2.1
  · simpa using (mem_serviceSuffix_classifiers o a h).2.1

theorem preShell_countP_isShellRun (o : Oracles) :
    (preShellActions o).countP isShellRun = 0 := by
  apply List.countP_eq_zero.mpr
  intro a ha
  rcases List.mem_append.mp ha with h | h
  · simpa using (mem_bootActions_shape a h).2.2.1
  · simpa using (mem_serviceSuffix_classifiers o a h).2.2.1

theorem deliver_some (t s : Sig) : deliver (some t) s = some t := by
  unfold deliver
  split <;> rfl

theorem deliverAll_some (t : Sig) (ds : List Sig) :
    deliverAll (some t) ds = some t := by
  induction ds with
  | nil => rfl
  | cons s rest ih =>
    simpa [deliverAll, deliver_some] using ih

theorem deliver_unregistered (buf : Option Sig) (s : Sig)
    (hs : s ∉ notifySet) : deliver buf s = buf := by
  unfold deliver
  split
  · exact absurd (by assumption) hs
  · rfl

theorem deliverAll_mem_registered (ds : List Sig) (s : Sig)
    (hmem : s ∈ ds) (hreg : s ∈ notifySet) :
    ∃ t, t ∈ notifySet ∧ deliverAll none ds = some t := by
  induction ds with
  | nil => cases hmem
  | cons x rest ih =>
    by_cases hx : x ∈ notifySet
    · refine ⟨x, hx, ?_⟩
      show deliverAll (deliver none x) rest = some x
      rw [show deliver none x = some x by unfold deliver; simp [hx]]
      exact deliverAll_some x rest
    · rcases List.mem_cons.mp hmem with rfl | hmem2
      · exact absurd hreg hx
      · obtain ⟨t, ht, hd⟩ := ih hmem2
        refine ⟨t, ht, ?_⟩
        show deliverAll (deliver none x) rest = some t
        rw [deliver_unregistered none x hx]
        exact hd

/-! ## Claims -/

/-- C1: in every iteration of `reapZombies`'s outer loop, the non-blocking
`Wait4` is retried until it reports "no child available", so all
currently-exited children are claimed in one drain pass before the loop
idles; and the loop never terminates, in particular not on a transient
wait error such as `EINTR`. -/
theorem reapZombies_drains_all_then_loop_continues
    (reaps rest : List Wait4Result) (stop : Wait4Result)
    (n : Nat) (trace : List Wait4Result)
    (hreaps : ∀ r ∈ reaps, r.pid > 0 ∧ r.err = none)
    (hstop : noChildAvailable stop) :
    drainPass (reaps ++ stop :: rest) = (reaps.map Wait4Result.pid, rest) ∧
    (reapRun n trace).2 = ReaperStatus.running := by
  constructor
  · induction reaps with
    | nil =>
      rcases hstop with ⟨h0, he⟩ | ⟨h0, he⟩ <;>
        simp [drainPass, h0, he]
    | cons r rs ih =>
      have hr := hreaps r (List.mem_cons_self r rs)
      have hrs : ∀ x ∈ rs, x.pid > 0 ∧ x.err = none := fun x hx =>
        hreaps x (List.mem_cons_of_mem r hx)
      have hcond : ¬(r.pid ≤ 0 ∨ r.err ≠ none) := by
        push_neg
        exact ⟨hr.1, hr.2⟩
      simp only [List.cons_append, drainPass, if_neg hcond, if_pos hr.1]
      rw [List.append_eq, ih hrs]
      simp
  · induction n generalizing trace with
    | zero => rfl
    | succ k ih =>
      simpa [reapRun, reapIteration] using ih (drainPass trace).2

/-- Witness for C1 at a concrete `Wait4` result list: two exited children
(pids 5 and 7) are both claimed in the drain pass that ends at the
"no child available" report, and a run whose `Wait4` result is a transient
`EINTR` error leaves the outer loop running. -/
theorem reapZombies_drain_witness :
    drainPass [⟨5, none⟩, ⟨7, none⟩, ⟨0, none⟩, ⟨3, none⟩] =
      ([5, 7], [⟨3, none⟩]) ∧
    (reapRun 3 [⟨-1, some GoErr.eintr⟩]).2 = ReaperStatus.running :=
  reapZombies_drains_all_then_loop_continues
    [⟨5, none⟩, ⟨7, none⟩] [⟨3, none⟩] ⟨0, none⟩
    3 [⟨-1, some GoErr.eintr⟩] (by decide) (by decide)

/-- The loop body of `startServices` (lines 85-102), at the list level:
filtering by the selection test and then forming the launch pair agrees
with the loop's one-pass `filterMap`. -/
theorem startServices_loop_eq_filter_map (binaryDir logDir : String)
    (stat : String → Option FileInfo) (files : List DirEntry) :
    (files.filterMap fun file =>
      if file.isDir then none
      else
        let filePath := filepathJoin binaryDir file.name
        match stat filePath with
        | none => none
        | some info =>
          if info.perm &&& 0o111 ≠ 0 then
            some (filePath, filepathJoin logDir (file.name ++ ".log"))
          else none) =
    (files.filter (serviceSelected binaryDir stat)).map
      fun file => (filepathJoin binaryDir file.name,
                   filepathJoin logDir (file.name ++ ".log")) := by
  induction files with
  | nil => rfl
  | cons f fs ih =>
    simp only [List.filterMap_cons, List.filter_cons]
    cases hd : f.isDir with
    | true =>
      simp only [serviceSelected, hd] at ih ⊢
      simpa using ih
    | false =>
      cases hstat : stat (filepathJoin binaryDir f.name) with
      | none =>
        simp only [serviceSelected, hd] at ih ⊢
        simp only [hstat]
        simpa using ih
      | some info =>
        by_cases hx : info.perm &&& 0o111 = 0
        · simp only [serviceSelected, hd] at ih ⊢
          simp only [hstat, hx]
          simpa using ih
        · simp only [serviceSelected, hd] at ih ⊢
          simp only [hstat]
          rw [if_pos hx]
          simpa [hx] using ih

/-- C2: `startServices` launches exactly one background task per directory
entry that is not a directory, whose stat succeeds, and whose permission
bits include at least one execute bit; non-executable files, directories,
and entries whose stat fails yield no launch.  The launched list is exactly
the selected entries, in order, so the number of launches equals the number
of selected entries. -/
theorem startServices_launches_iff_executable_regular_file
    (binaryDir logDir : String) (files : List DirEntry)
    (stat : String → Option FileInfo) :
    startServices binaryDir logDir (Except.ok files) stat =
      Except.ok ((files.filter (serviceSelected binaryDir stat)).map
        fun file => (filepathJoin binaryDir file.name,
                     filepathJoin logDir (file.name ++ ".log"))) ∧
    ((files.filter (serviceSelected binaryDir stat)).map
        fun file => (filepathJoin binaryDir file.name,
                     filepathJoin logDir (file.name ++ ".log"))).length =
      files.countP (serviceSelected binaryDir stat) := by
  constructor
  · exact congrArg Except.ok
      (startServices_loop_eq_filter_map binaryDir logDir stat files)
  · rw [List.length_map, List.countP_eq_length_filter]

/-- C3: a failed directory read is returned as that single error with no
launches performed; a successful read always returns success (the Go
function returns `nil` after the loop). -/
theorem startServices_dirRead_error_propagates_else_ok
    (binaryDir logDir : String) (stat : String → Option FileInfo)
    (e : GoErr) (files : List DirEntry) :
    startServices binaryDir logDir (Except.error e) stat = Except.error e ∧
    ∃ launches, startServices binaryDir logDir (Except.ok files) stat =
      Except.ok launches :=
  ⟨rfl, ⟨_, rfl⟩⟩

/-- Splitting a `main` run into the fixed boot prefix and the rest. -/
theorem mainRun_split (o : Oracles) (ds : List Sig) :
    (mainRun o ds).1 =
      bootActions ++ (serviceSuffix o ++ [shellAction o] ++
        awaitActions (deliverAll none ds)) := by
  simp [mainRun, preShellActions]

/-- Nothing after the boot prefix is a mount attempt. -/
theorem rest_no_mountAttempt (o : Oracles) (buf : Option Sig) (a : InitAction)
    (ha : a ∈ serviceSuffix o ++ [shellAction o] ++ awaitActions buf) :
    isMountAttempt a = false := by
  rcases List.mem_append.mp ha with h | h
  · rcases List.mem_append.mp h with h2 | h2
    · exact (mem_serviceSuffix_classifiers o a h2).2.2.2
    · rw [List.mem_singleton.mp h2]; rfl
  · cases buf with
    | none => cases h
    | some s =>
      rcases List.mem_cons.mp h with rfl | h2
      · rfl
      · rw [List.mem_singleton.mp h2]; rfl

theorem countP_awaitActions_isReboot (buf : Option Sig) :
    (awaitActions buf).countP isReboot = if buf.isSome then 1 else 0 := by
  cases buf <;> rfl

theorem countP_awaitActions_isRecv (buf : Option Sig) :
    (awaitActions buf).countP isRecv = if buf.isSome then 1 else 0 := by
  cases buf <;> rfl

theorem countP_awaitActions_isShellRun (buf : Option Sig) :
    (awaitActions buf).countP isShellRun = 0 := by
  cases buf <;> rfl

theorem deliverAll_append (buf : Option Sig) (l1 l2 : List Sig) :
    deliverAll buf (l1 ++ l2) = deliverAll (deliverAll buf l1) l2 := by
  induction l1 generalizing buf with
  | nil => rfl
  | cons x rest ih => simpa [deliverAll] using ih (deliver buf x)

theorem deliverAll_unregistered (buf : Option Sig) (ds : List Sig)
    (h : ∀ x ∈ ds, x ∉ notifySet) : deliverAll buf ds = buf := by
  induction ds with
  | nil => rfl
  | cons x rest ih =>
    show deliverAll (deliver buf x) rest = buf
    rw [deliver_unregistered buf x (h x (List.mem_cons_self x rest))]
    exact ih fun y hy => h y (List.mem_cons_of_mem x hy)

/-- C4: the reboot system call is invoked exactly once, only after the
foreground shell has returned and exactly one termination notification has
been consumed from the channel; this holds for any delivery pattern that
contains at least one subscribed signal, in particular when the
notification is sent twice in succession. -/
theorem reboot_exactly_once_after_shell_and_signal
    (o : Oracles) (ds : List Sig) (s : Sig)
    (hs : s ∈ ds) (hreg : s ∈ notifySet) :
    ∃ t, deliverAll none ds = some t ∧
      (mainRun o ds).1 =
        preShellActions o ++
          [shellAction o, InitAction.recvSignal t,
           InitAction.rebootCall LINUX_REBOOT_CMD_RESTART] ∧
      (mainRun o ds).1.countP isReboot = 1 ∧
      (mainRun o ds).1.countP isRecv = 1 := by
  obtain ⟨t, _, hd⟩ := deliverAll_mem_registered ds s hs hreg
  have htrace : (mainRun o ds).1 =
      preShellActions o ++ [shellAction o] ++ awaitActions (some t) := by
    simp [mainRun, hd]
  refine ⟨t, hd, ?_, ?_, ?_⟩
  · rw [htrace]
    simp [awaitActions]
  · rw [htrace, List.countP_append, List.countP_append,
      preShell_countP_isReboot, countP_awaitActions_isReboot]
    rfl
  · rw [htrace, List.countP_append, List.countP_append,
      preShell_countP_isRecv, countP_awaitActions_isRecv]
    rfl

/-- A fixed sample oracle assignment: empty environment, no entries in the
services directory, every discarded call failing or succeeding trivially. -/
def sampleOracles : Oracles :=
  ⟨[], fun _ => none, fun _ => none, Except.ok [], fun _ => none, none⟩

/-- Witness for C4: the termination notification sent twice in succession
still yields exactly one reboot invocation. -/
theorem reboot_exactly_once_witness :
    ∃ t, deliverAll none [Sig.sigterm, Sig.sigterm] = some t ∧
      (mainRun sampleOracles [Sig.sigterm, Sig.sigterm]).1 =
        preShellActions sampleOracles ++
          [shellAction sampleOracles, InitAction.recvSignal t,
           InitAction.rebootCall LINUX_REBOOT_CMD_RESTART] ∧
      (mainRun sampleOracles [Sig.sigterm, Sig.sigterm]).1.countP isReboot = 1 ∧
      (mainRun sampleOracles [Sig.sigterm, Sig.sigterm]).1.countP isRecv = 1 :=
  reboot_exactly_once_after_shell_and_signal sampleOracles
    [Sig.sigterm, Sig.sigterm] Sig.sigterm (by decide) (by decide)

/-- C5: the five fixed mounts are attempted in list order — `/dev`
(devtmpfs), `/proc` (proc), `/sys` (sysfs), `/tmp` (tmpfs), `/run`
(tmpfs) — and every mount attempt happens before the reaper is started,
before any service launch, and before the foreground shell runs: the first
twelve actions are exactly the subscription, the ten mkdir/mount steps in
order, and the reaper start, and no action after them is a mount attempt. -/
theorem mounts_attempted_in_order_before_other_phases
    (o : Oracles) (ds : List Sig) :
    (mainRun o ds).1.take 12 =
      [InitAction.subscribe 1 notifySet,
       InitAction.mkdirAll "/dev" 0o755,
       InitAction.mountCall "none" "/dev" "devtmpfs",
       InitAction.mkdirAll "/proc" 0o755,
       InitAction.mountCall "none" "/proc" "proc",
       InitAction.mkdirAll "/sys" 0o755,
       InitAction.mountCall "none" "/sys" "sysfs",
       InitAction.mkdirAll "/tmp" 0o755,
       InitAction.mountCall "none" "/tmp" "tmpfs",
       InitAction.mkdirAll "/run" 0o755,
       InitAction.mountCall "none" "/run" "tmpfs",
       InitAction.startReaper] ∧
    ∀ a ∈ (mainRun o ds).1.drop 12, isMountAttempt a = false := by
  constructor
  · rw [mainRun_split, show (12 : Nat) = bootActions.length from rfl,
      List.take_left]
    exact bootActions_eq
  · rw [mainRun_split, show (12 : Nat) = bootActions.length from rfl,
      List.drop_left]
    exact fun a ha => rest_no_mountAttempt o _ a ha

/-- C6: for each MountSpec the target directory creation (`MkdirAll` with
permissions 0755, create-if-missing) precedes the mount attempt; the
results of both calls are discarded, so failures change nothing in the run
(not fatal); each mount is attempted exactly once (no retry); and the
reaper start and the shell run are still performed. -/
theorem mount_failure_not_fatal_dir_created_first
    (o : Oracles) (m1 m2 e1 e2 : String → Option GoErr) (ds : List Sig)
    (target fstype : String) (hmem : (target, fstype) ∈ mountSpecs) :
    mainRun { o with mkdirErr := m1, mountErr := e1 } ds =
      mainRun { o with mkdirErr := m2, mountErr := e2 } ds ∧
    (∃ i j : Nat, i < j ∧
      (mainRun o ds).1[i]? = some (InitAction.mkdirAll target 0o755) ∧
      (mainRun o ds).1[j]? = some (InitAction.mountCall "none" target fstype)) ∧
    (mainRun o ds).1.count (InitAction.mountCall "none" target fstype) = 1 ∧
    InitAction.startReaper ∈ (mainRun o ds).1 ∧
    shellAction o ∈ (mainRun o ds).1 := by
  have hrest0 : (serviceSuffix o ++ [shellAction o] ++
      awaitActions (deliverAll none ds)).count
        (InitAction.mountCall "none" target fstype) = 0 := by
    rw [List.count_eq_zero]
    intro hin
    simpa [isMountAttempt] using rest_no_mountAttempt o _ _ hin
  simp only [mountSpecs, List.mem_cons, List.not_mem_nil, or_false,
    Prod.mk.injEq] at hmem
  refine ⟨rfl, ?_, ?_, ?_, ?_⟩
  · rw [mainRun_split]
    rcases hmem with ⟨rfl, rfl⟩ | ⟨rfl, rfl⟩ | ⟨rfl, rfl⟩ | ⟨rfl, rfl⟩ | ⟨rfl, rfl⟩
    · exact ⟨1, 2, by omega, rfl, rfl⟩
    · exact ⟨3, 4, by omega, rfl, rfl⟩
    · exact ⟨5, 6, by omega, rfl, rfl⟩
    · exact ⟨7, 8, by omega, rfl, rfl⟩
    · exact ⟨9, 10, by omega, rfl, rfl⟩
  · rw [mainRun_split, List.count_append, hrest0]
    rcases hmem with ⟨rfl, rfl⟩ | ⟨rfl, rfl⟩ | ⟨rfl, rfl⟩ | ⟨rfl, rfl⟩ | ⟨rfl, rfl⟩ <;>
      decide
  · rw [mainRun_split]
    exact List.mem_append.mpr (Or.inl (by decide))
  · rw [mainRun_split]
    exact List.mem_append.mpr (Or.inr (List.mem_append.mpr (Or.inl
      (List.mem_append.mpr (Or.inr (List.mem_singleton_self _))))))

/-- Witness for C6 at the `/proc` mount, with one run whose mkdir and mount
calls all fail and one where they all succeed. -/
theorem mount_failure_witness :
    mainRun { sampleOracles with
                mkdirErr := (fun _ => some GoErr.eacces),
                mountErr := (fun _ => some GoErr.enoent) } [] =
      mainRun { sampleOracles with
                  mkdirErr := (fun _ => none),
                  mountErr := (fun _ => none) } [] ∧
    (∃ i j : Nat, i < j ∧
      (mainRun sampleOracles []).1[i]? =
        some (InitAction.mkdirAll "/proc" 0o755) ∧
      (mainRun sampleOracles []).1[j]? =
        some (InitAction.mountCall "none" "/proc" "proc")) ∧
    (mainRun sampleOracles []).1.count
      (InitAction.mountCall "none" "/proc" "proc") = 1 ∧
    InitAction.startReaper ∈ (mainRun sampleOracles []).1 ∧
    shellAction sampleOracles ∈ (mainRun sampleOracles []).1 :=
  mount_failure_not_fatal_dir_created_first sampleOracles
    (fun _ => some GoErr.eacces) (fun _ => none)
    (fun _ => some GoErr.enoent) (fun _ => none)
    [] "/proc" "proc" (by decide)

/-- C7: when the log file of one service entry cannot be opened, that
entry's task performs nothing — no child start, and no error report of any
kind — and the open outcomes have no effect on which services are
launched. -/
theorem logOpen_failure_skips_entry_silently_and_isolated
    (bin log binaryDir logDir : String) (startOk : Bool)
    (readDir : Except GoErr (List DirEntry)) (stat : String → Option FileInfo)
    (open1 open2 sOk : String → Bool) :
    startAndLogProcess bin log false startOk = [] ∧
    (∀ b, SvcAction.startProc b ∉ startAndLogProcess bin log false startOk) ∧
    (∀ m, SvcAction.printError m ∉ startAndLogProcess bin log false startOk) ∧
    (servicePhase binaryDir logDir readDir stat open1 sOk).map
        (fun entries => entries.map Prod.fst) =
      (servicePhase binaryDir logDir readDir stat open2 sOk).map
        (fun entries => entries.map Prod.fst) := by
  refine ⟨rfl, by simp [startAndLogProcess], by simp [startAndLogProcess], ?_⟩
  cases h : startServices binaryDir logDir readDir stat with
  | error e => simp [servicePhase, h, Except.map]
  | ok launches => simp [servicePhase, h, Except.map, List.map_map, Function.comp]

/-- C8: the foreground shell is `/bin/busybox sh`, wired to the init
process's own standard input, output and error, with environment exactly
the inherited environment followed by the single added `PS1` entry; it is
run exactly once. -/
theorem shell_wired_to_std_streams_env_plus_ps1 (o : Oracles) (ds : List Sig) :
    shellAction o ∈ (mainRun o ds).1 ∧
    (mainRun o ds).1.countP isShellRun = 1 ∧
    shellAction o = InitAction.shellRun "/bin/busybox" ["sh"] true true true
      (o.environ ++ [ps1Entry]) ∧
    (o.environ ++ [ps1Entry]).take o.environ.length = o.environ ∧
    (o.environ ++ [ps1Entry]).drop o.environ.length = [ps1Entry] := by
  have htrace : (mainRun o ds).1 =
      preShellActions o ++ [shellAction o] ++
        awaitActions (deliverAll none ds) := by
    simp [mainRun]
  refine ⟨?_, ?_, rfl, List.take_left o.environ _, List.drop_left o.environ _⟩
  · rw [htrace]
    exact List.mem_append.mpr (Or.inl
      (List.mem_append.mpr (Or.inr (List.mem_singleton_self _))))
  · rw [htrace, List.countP_append, List.countP_append,
      preShell_countP_isShellRun, countP_awaitActions_isShellRun]
    rfl

/-- C9: the subscription (terminate and interrupt, channel buffer size 1)
is the very first action of `main`; a single subscribed signal delivered at
any point of the run — surrounded by arbitrary unsubscribed signals — is
retained in the buffer, and once the shell has returned it is consumed and
the reboot follows. -/
theorem signal_subscribe_first_single_signal_retained
    (o : Oracles) (pre post : List Sig) (s : Sig)
    (hreg : s ∈ notifySet)
    (hpre : ∀ x ∈ pre, x ∉ notifySet) (_hpost : ∀ x ∈ post, x ∉ notifySet) :
    (mainRun o (pre ++ s :: post)).1.head? =
      some (InitAction.subscribe 1 notifySet) ∧
    deliverAll none (pre ++ s :: post) = some s ∧
    (mainRun o (pre ++ s :: post)).1 =
      preShellActions o ++
        [shellAction o, InitAction.recvSignal s,
         InitAction.rebootCall LINUX_REBOOT_CMD_RESTART] ∧
    (mainRun o (pre ++ s :: post)).2 = MainOutcome.rebooted := by
  have hbuf : deliverAll none (pre ++ s :: post) = some s := by
    rw [deliverAll_append, deliverAll_unregistered none pre hpre]
    show deliverAll (deliver none s) post = some s
    rw [show deliver none s = some s from by unfold deliver; simp [hreg]]
    exact deliverAll_some s post
  refine ⟨?_, hbuf, ?_, ?_⟩
  · rw [mainRun_split]
    rfl
  · simp [mainRun, hbuf, awaitActions]
  · simp [mainRun, hbuf]

/-- Witness for C9: a single SIGINT delivered between two unrelated
signals is retained and produces the reboot after the shell action. -/
theorem signal_retained_witness :
    (mainRun sampleOracles ([Sig.other 9] ++ Sig.sigint :: [Sig.other 4])).1.head? =
      some (InitAction.subscribe 1 notifySet) ∧
    deliverAll none ([Sig.other 9] ++ Sig.sigint :: [Sig.other 4]) =
      some Sig.sigint ∧
    (mainRun sampleOracles ([Sig.other 9] ++ Sig.sigint :: [Sig.other 4])).1 =
      preShellActions sampleOracles ++
        [shellAction sampleOracles, InitAction.recvSignal Sig.sigint,
         InitAction.rebootCall LINUX_REBOOT_CMD_RESTART] ∧
    (mainRun sampleOracles ([Sig.other 9] ++ Sig.sigint :: [Sig.other 4])).2 =
      MainOutcome.rebooted :=
  signal_subscribe_first_single_signal_retained sampleOracles
    [Sig.other 9] [Sig.other 4] Sig.sigint (by decide) (by decide) (by decide)

/-- C10: the result of running the shell is discarded — the run is
identical for every shell outcome, including a failure to start — and
after the shell, `main` proceeds to await the termination signal; the run
never ends except through the reboot invocation: its outcome is either
`rebooted` (exactly when the reboot call is in the trace) or blocked
forever awaiting a signal. -/
theorem shell_error_discarded_main_ends_only_by_reboot
    (o : Oracles) (e1 e2 : Option GoErr) (ds : List Sig) :
    mainRun { o with shellErr := e1 } ds = mainRun { o with shellErr := e2 } ds ∧
    (mainRun o ds).1 =
      preShellActions o ++ [shellAction o] ++
        awaitActions (deliverAll none ds) ∧
    ((mainRun o ds).2 = MainOutcome.rebooted ∨
      (mainRun o ds).2 = MainOutcome.blockedAwaitingSignal) ∧
    (mainRun o ds).2 ≠ MainOutcome.exitedWithoutReboot ∧
    ((mainRun o ds).2 = MainOutcome.rebooted ↔
      InitAction.rebootCall LINUX_REBOOT_CMD_RESTART ∈ (mainRun o ds).1) := by
  refine ⟨rfl, by simp [mainRun], ?_, ?_, ?_⟩
  · cases hbuf : deliverAll none ds <;> simp [mainRun, hbuf]
  · cases hbuf : deliverAll none ds <;> simp [mainRun, hbuf]
  · constructor
    · intro hout
      cases hbuf : deliverAll none ds with
      | none => simp [mainRun, hbuf] at hout
      | some t =>
        have htrace : (mainRun o ds).1 =
            preShellActions o ++ [shellAction o] ++ awaitActions (some t) := by
          simp [mainRun, hbuf]
        rw [htrace]
        exact List.mem_append.mpr (Or.inr (by simp [awaitActions]))
    · intro hmem
      cases hbuf : deliverAll none ds with
      | some t => simp [mainRun, hbuf]
      | none =>
        exfalso
        rw [mainRun_split, hbuf] at hmem
        have := rest_no_mountAttempt o none
        rcases List.mem_append.mp hmem with h | h
        · simpa [isReboot] using (mem_bootActions_shape _ h).1
        · rcases List.mem_append.mp h with h2 | h2
          · rcases List.mem_append.mp h2 with h3 | h3
            · rcases mem_serviceSuffix_shape o _ h3 with ⟨b, l, hb⟩ | ⟨m, hm⟩
              · exact absurd hb (by simp)
              · exact absurd hm (by simp)
            · exact absurd (List.mem_singleton.mp h3) (by simp [shellAction])
          · cases h2
